import Mathlib

/-!
# Verification of `sanskrit.transliterate.sanscript`

A shallow embedding of the transliteration engine in
`src/sanskrit/transliterate/sanscript.py`, together with proofs of the
behavioral properties stated in the specification.

Modelling conventions:
* A Python `dict` of strings is modelled as an association list
  (`Dict := List (String × String)`) whose observable behavior is lookup
  (`dget`).  Insertion (`dset`) removes any earlier binding of the key, so
  later writes win, exactly as for a Python dict.
* A `Scheme` is its ordered list of (group name, character list) pairs plus
  the `is_roman` flag.
* Iteration `for L in data` over a Python unicode string visits one code
  point at a time, so the transliteration functions take a `List Char`.
-/

namespace Sanscript

/-- An association-list dictionary from strings to strings. -/
abbrev Dict := List (String × String)

/-- Remove every binding of key `k` (helper for `dset`). -/
def dremove : Dict → String → Dict
  | [], _ => []
  | p :: rest, k => if p.1 = k then dremove rest k else p :: dremove rest k

/-- Insert binding `k ↦ v`, overriding any earlier binding of `k`
(Python `d[k] = v`). -/
def dset (d : Dict) (k v : String) : Dict :=
  (k, v) :: dremove d k

/-- Look up key `k` (Python `d[k]` / `d.get(k)` / `k in d`). -/
def dget : Dict → String → Option String
  | [], _ => none
  | p :: rest, k => if p.1 = k then some p.2 else dget rest k

/-- Insert a list of pairs left to right (Python `d.update(pairs)`; also a
dict comprehension when `d = []`).  Later pairs override earlier ones. -/
def dupdate (d : Dict) (ps : List (String × String)) : Dict :=
  ps.foldl (fun acc p => dset acc p.1 p.2) d

/-- `Scheme`: the data of one script, as an ordered mapping from group name
to the ordered list of that group's characters, plus the `is_roman` flag
(`class Scheme(dict)` with attribute `is_roman`). -/
structure Scheme where
  groups : List (String × List String)
  is_roman : Bool
  deriving DecidableEq

/-- `SchemeMap`: the four sub-maps and the two romanization flags built by
`SchemeMap.__init__`. -/
structure SchemeMap where
  marks : Dict
  virama : Dict
  consonants : Dict
  other : Dict
  from_roman : Bool
  to_roman : Bool
  deriving DecidableEq

/-- Python `str.endswith`, as a suffix test on the underlying code points
(the builtin `String.endsWith` does not reduce in the kernel). -/
def strEndsWith (s suffixStr : String) : Bool :=
  List.isSuffixOf suffixStr.data s.data

/-- One group's sub-map:
`{k: v for (k, v) in zip(from_scheme[group], to_scheme[group])}`.
`zip` pairs positionally and stops at the shorter list. -/
def subMap (xs ys : List String) : Dict :=
  dupdate [] (xs.zip ys)

/-- The body of the `for group in from_scheme` loop of `SchemeMap.__init__`:
skip groups absent from the destination, then dispatch the zipped sub-map on
the group name (`*marks` → `marks`, `virama` → `virama`, else → `other`,
and additionally `*consonants` → `consonants`). -/
def buildStep (to_scheme : Scheme) (m : SchemeMap) (g : String × List String) : SchemeMap :=
  match dgetGroups to_scheme.groups g.1 with
  | none => m
  | some ys =>
    let sm := subMap g.2 ys
    if strEndsWith g.1 "marks" then
      { m with marks := dupdate m.marks sm }
    else if g.1 = "virama" then
      { m with virama := sm }
    else if strEndsWith g.1 "consonants" then
      { m with other := dupdate m.other sm, consonants := dupdate m.consonants sm }
    else
      { m with other := dupdate m.other sm }
where
  /-- Group lookup in a scheme (`group in to_scheme` / `to_scheme[group]`). -/
  dgetGroups : List (String × List String) → String → Option (List String)
    | [], _ => none
    | p :: rest, k => if p.1 = k then some p.2 else dgetGroups rest k

/-- `SchemeMap.__init__(from_scheme, to_scheme)`. -/
def SchemeMap.build (from_scheme to_scheme : Scheme) : SchemeMap :=
  from_scheme.groups.foldl (buildStep to_scheme)
    { marks := [], virama := [], consonants := [], other := [],
      from_roman := from_scheme.is_roman, to_roman := to_scheme.is_roman }

/-- `_roman(data, scheme_map)`: the romanized-source conversion.  The source
initializes `buf = []`, never appends to it, and returns `''.join(buf)`. -/
def roman (data : List Char) (scheme_map : SchemeMap) : String :=
  String.join []

/-- The string consisting of the single code point `L`. -/
def charStr (L : Char) : String :=
  ⟨[L]⟩

/-- The emission of one iteration of the `for L in data` loop of `_brahmic`:
marks first, then virama, else an optional pending `'a'` followed by
`other.get(L, L)`. -/
def brahmicEmit (scheme_map : SchemeMap) (had_consonant : Bool) (L : Char) : String :=
  match dget scheme_map.marks (charStr L) with
  | some v => v
  | none =>
    match dget scheme_map.virama (charStr L) with
    | some v => v
    | none =>
      (if had_consonant then "a" else "") ++ (dget scheme_map.other (charStr L)).getD (charStr L)

/-- The update `had_consonant = to_roman and L in consonants` performed at
the end of every iteration of the `_brahmic` loop. -/
def brahmicNext (scheme_map : SchemeMap) (L : Char) : Bool :=
  scheme_map.to_roman && (dget scheme_map.consonants (charStr L)).isSome

/-- The `_brahmic` loop with the carried `had_consonant` flag, plus the
final flush `if had_consonant: append('a')`. -/
def brahmicGo (scheme_map : SchemeMap) : List Char → Bool → String
  | [], had_consonant => if had_consonant then "a" else ""
  | L :: rest, had_consonant =>
    brahmicEmit scheme_map had_consonant L ++ brahmicGo scheme_map rest (brahmicNext scheme_map L)

/-- `_brahmic(data, scheme_map)`: the segmental-source conversion. -/
def brahmic (data : List Char) (scheme_map : SchemeMap) : String :=
  brahmicGo scheme_map data false

/-- `transliterate(data, scheme_map=scheme_map)`: select the algorithm by the
source scheme's flag. -/
def transliterate (data : List Char) (scheme_map : SchemeMap) : String :=
  if scheme_map.from_roman then roman data scheme_map else brahmic data scheme_map

/-- The bengali scheme from the catalog (`is_roman=false`). -/
def bengali : Scheme :=
  ⟨[
    ("vowels", ["অ", "আ", "ই", "ঈ", "উ", "ঊ", "ঋ", "ৠ", "ঌ", "ৡ", "এ", "ঐ", "ও", "ঔ"]),
    ("marks", ["া", "ি", "ী", "ু", "ূ", "ৃ", "ৄ", "ৢ", "ৣ", "ে", "ৈ", "ো", "ৌ"]),
    ("virama", ["্"]),
    ("other", ["ং", "ঃ", "ঁ"]),
    ("consonants", ["ক", "খ", "গ", "ঘ", "ঙ", "চ", "ছ", "জ", "ঝ", "ঞ", "ট", "ঠ", "ড", "ঢ", "ণ", "ত", "থ", "দ", "ধ", "ন", "প", "ফ", "ব", "ভ", "ম", "য", "র", "ল", "ব", "শ", "ষ", "স", "হ", "ळ", "ক্ষ", "জ্ঞ"]),
    ("symbols", ["ॐ", "ঽ", "।", "॥", "০", "১", "২", "৩", "৪", "৫", "৬", "৭", "৮", "৯"])], false⟩

/-- The devanagari scheme from the catalog (`is_roman=false`). -/
def devanagari : Scheme :=
  ⟨[
    ("vowels", ["अ", "आ", "इ", "ई", "उ", "ऊ", "ऋ", "ॠ", "ऌ", "ॡ", "ए", "ऐ", "ओ", "औ"]),
    ("marks", ["ा", "ि", "ी", "ु", "ू", "ृ", "ॄ", "ॢ", "ॣ", "े", "ै", "ो", "ौ"]),
    ("virama", ["्"]),
    ("other", ["ं", "ः", "ँ"]),
    ("consonants", ["क", "ख", "ग", "घ", "ङ", "च", "छ", "ज", "झ", "ञ", "ट", "ठ", "ड", "ढ", "ण", "त", "थ", "द", "ध", "न", "प", "फ", "ब", "भ", "म", "य", "र", "ल", "व", "श", "ष", "स", "ह", "ळ", "क्ष", "ज्ञ"]),
    ("symbols", ["ॐ", "ऽ", "।", "॥", "०", "१", "२", "३", "४", "५", "६", "७", "८", "९"])], false⟩

/-- The gujarati scheme from the catalog (`is_roman=false`). -/
def gujarati : Scheme :=
  ⟨[
    ("vowels", ["અ", "આ", "ઇ", "ઈ", "ઉ", "ઊ", "ઋ", "ૠ", "ઌ", "ૡ", "એ", "ઐ", "ઓ", "ઔ"]),
    ("marks", ["ા", "િ", "ી", "ુ", "ૂ", "ૃ", "ૄ", "ૢ", "ૣ", "ે", "ૈ", "ો", "ૌ"]),
    ("virama", ["્"]),
    ("other", ["ં", "ઃ", "ઁ"]),
    ("consonants", ["ક", "ખ", "ગ", "ઘ", "ઙ", "ચ", "છ", "જ", "ઝ", "ઞ", "ટ", "ઠ", "ડ", "ઢ", "ણ", "ત", "થ", "દ", "ધ", "ન", "પ", "ફ", "બ", "ભ", "મ", "ય", "ર", "લ", "વ", "શ", "ષ", "સ", "હ", "ળ", "ક્ષ", "જ્ઞ"]),
    ("symbols", ["ૐ", "ઽ", "૤", "૥", "૦", "૧", "૨", "૩", "૪", "૫", "૬", "૭", "૮", "૯"])], false⟩

/-- The hk scheme from the catalog (`is_roman=true`). -/
def hk : Scheme :=
  ⟨[
    ("vowels", ["a", "A", "i", "I", "u", "U", "R", "RR", "lR", "lRR", "e", "ai", "o", "au"]),
    ("marks", ["A", "i", "I", "u", "U", "R", "RR", "lR", "lRR", "e", "ai", "o", "au"]),
    ("virama", [""]),
    ("other", ["M", "H", "~"]),
    ("consonants", ["k", "kh", "g", "gh", "G", "c", "ch", "j", "jh", "J", "T", "Th", "D", "Dh", "N", "t", "th", "d", "dh", "n", "p", "ph", "b", "bh", "m", "y", "r", "l", "v", "z", "S", "s", "h", "L", "kS", "jJ"]),
    ("symbols", ["OM", "\u0027", "|", "||", "0", "1", "2", "3", "4", "5", "6", "7", "8", "9"])], true⟩

/-- The iast scheme from the catalog (`is_roman=true`). -/
def iast : Scheme :=
  ⟨[
    ("vowels", ["a", "ā", "i", "ī", "u", "ū", "ṛ", "ṝ", "ḷ", "ḹ", "e", "ai", "o", "au"]),
    ("marks", ["ā", "i", "ī", "u", "ū", "ṛ", "ṝ", "ḷ", "ḹ", "e", "ai", "o", "au"]),
    ("virama", [""]),
    ("other", ["ṃ", "ḥ", "m̐"]),
    ("consonants", ["k", "kh", "g", "gh", "ṅ", "c", "ch", "j", "jh", "ñ", "ṭ", "ṭh", "ḍ", "ḍh", "ṇ", "t", "th", "d", "dh", "n", "p", "ph", "b", "bh", "m", "y", "r", "l", "v", "ś", "ṣ", "s", "h", "ḻ", "kṣ", "jñ"]),
    ("symbols", ["oṃ", "\u0027", "।", "॥", "0", "1", "2", "3", "4", "5", "6", "7", "8", "9"])], true⟩

/-- The kannada scheme from the catalog (`is_roman=false`). -/
def kannada : Scheme :=
  ⟨[
    ("vowels", ["ಅ", "ಆ", "ಇ", "ಈ", "ಉ", "ಊ", "ಋ", "ೠ", "ಌ", "ೡ", "ಏ", "ಐ", "ಓ", "ಔ"]),
    ("marks", ["ಾ", "ಿ", "ೀ", "ು", "ೂ", "ೃ", "ೄ", "ೢ", "ೣ", "ೇ", "ೈ", "ೋ", "ೌ"]),
    ("virama", ["್"]),
    ("other", ["ಂ", "ಃ", "ँ"]),
    ("consonants", ["ಕ", "ಖ", "ಗ", "ಘ", "ಙ", "ಚ", "ಛ", "ಜ", "ಝ", "ಞ", "ಟ", "ಠ", "ಡ", "ಢ", "ಣ", "ತ", "ಥ", "ದ", "ಧ", "ನ", "ಪ", "ಫ", "ಬ", "ಭ", "ಮ", "ಯ", "ರ", "ಲ", "ವ", "ಶ", "ಷ", "ಸ", "ಹ", "ಳ", "ಕ್ಷ", "ಜ್ಞ"]),
    ("symbols", ["ಓಂ", "ऽ", "।", "॥", "೦", "೧", "೨", "೩", "೪", "೫", "೬", "೭", "೮", "೯"])], false⟩

/-- The malayalam scheme from the catalog (`is_roman=false`). -/
def malayalam : Scheme :=
  ⟨[
    ("vowels", ["അ", "ആ", "ഇ", "ഈ", "ഉ", "ഊ", "ഋ", "ൠ", "ഌ", "ൡ", "ഏ", "ഐ", "ഓ", "ഔ"]),
    ("marks", ["ാ", "ി", "ീ", "ു", "ൂ", "ൃ", "ൄ", "ൢ", "ൣ", "േ", "ൈ", "ോ", "ൌ"]),
    ("virama", ["്"]),
    ("other", ["ം", "ഃ", "ँ"]),
    ("consonants", ["ക", "ഖ", "ഗ", "ഘ", "ങ", "ച", "ഛ", "ജ", "ഝ", "ഞ", "ട", "ഠ", "ഡ", "ഢ", "ണ", "ത", "ഥ", "ദ", "ധ", "ന", "പ", "ഫ", "ബ", "ഭ", "മ", "യ", "ര", "ല", "വ", "ശ", "ഷ", "സ", "ഹ", "ള", "ക്ഷ", "ജ്ഞ"]),
    ("symbols", ["ഓം", "ഽ", "।", "॥", "൦", "൧", "൨", "൩", "൪", "൫", "൬", "൭", "൮", "൯"])], false⟩

/-- The slp1 scheme from the catalog (`is_roman=true`). -/
def slp1 : Scheme :=
  ⟨[
    ("vowels", ["a", "A", "i", "I", "u", "U", "f", "F", "x", "X", "e", "E", "o", "O"]),
    ("marks", ["A", "i", "I", "u", "U", "f", "F", "x", "X", "e", "E", "o", "O"]),
    ("virama", [""]),
    ("other", ["M", "H", "~"]),
    ("consonants", ["k", "K", "g", "G", "N", "c", "C", "j", "J", "Y", "w", "W", "q", "Q", "R", "t", "T", "d", "D", "n", "p", "P", "b", "B", "m", "y", "r", "l", "v", "S", "z", "s", "h", "L", "kz", "jY"]),
    ("symbols", ["oM", "\u0027", ".", "..", "0", "1", "2", "3", "4", "5", "6", "7", "8", "9"])], true⟩

/-- The telugu scheme from the catalog (`is_roman=false`). -/
def telugu : Scheme :=
  ⟨[
    ("vowels", ["అ", "ఆ", "ఇ", "ఈ", "ఉ", "ఊ", "ఋ", "ౠ", "ఌ", "ౡ", "ఏ", "ఐ", "ఓ", "ఔ"]),
    ("marks", ["ా", "ి", "ీ", "ు", "ూ", "ృ", "ౄ", "ౢ", "ౣ", "ే", "ై", "ో", "ౌ"]),
    ("virama", ["్"]),
    ("other", ["ం", "ః", "ఁ"]),
    ("consonants", ["క", "ఖ", "గ", "ఘ", "ఙ", "చ", "ఛ", "జ", "ఝ", "ఞ", "ట", "ఠ", "డ", "ఢ", "ణ", "త", "థ", "ద", "ధ", "న", "ప", "ఫ", "బ", "భ", "మ", "య", "ర", "ల", "వ", "శ", "ష", "స", "హ", "ళ", "క్ష", "జ్ఞ"]),
    ("symbols", ["ఓం", "ఽ", "।", "॥", "౦", "౧", "౨", "౩", "౪", "౫", "౬", "౭", "౮", "౯"])], false⟩

/-- The `SCHEMES` catalog, in source registration order. -/
def SCHEMES : List (String × Scheme) :=
  [("bengali", bengali), ("devanagari", devanagari), ("gujarati", gujarati), ("hk", hk), ("iast", iast), ("kannada", kannada), ("malayalam", malayalam), ("slp1", slp1), ("telugu", telugu)]

/-- Catalog lookup (`SCHEMES[name]`). -/
def dgetScheme : List (String × Scheme) → String → Option Scheme
  | [], _ => none
  | p :: rest, k => if p.1 = k then some p.2 else dgetScheme rest k

/-- `transliterate(data, _from, _to)` without a precomputed map:
`SCHEMES[_from]` is evaluated first and `SCHEMES[_to]` second, and a name
absent from the catalog raises `KeyError` there, before any conversion runs.
Modelled with `Except`, the error carrying the missing key. -/
def transliterateNames (data : List Char) (fromName toName : String) : Except String String :=
  match dgetScheme SCHEMES fromName with
  | none => Except.error fromName
  | some from_scheme =>
    match dgetScheme SCHEMES toName with
    | none => Except.error toName
    | some to_scheme => Except.ok (transliterate data (SchemeMap.build from_scheme to_scheme))

/-- Whether an `Except` result is a success. -/
def exceptIsOk : Except String String → Bool
  | Except.ok _ => true
  | Except.error _ => false

/-- The Devanagari → IAST scheme map (segmental source, romanized destination). -/
def devanagariToIast : SchemeMap := SchemeMap.build devanagari iast

/-- The IAST → Devanagari scheme map (romanized source). -/
def iastToDevanagari : SchemeMap := SchemeMap.build iast devanagari

/-- The Devanagari → Bengali scheme map (segmental source and destination). -/
def devanagariToBengali : SchemeMap := SchemeMap.build devanagari bengali

/-! ## Dictionary lemmas -/

theorem dget_dremove (d : Dict) (a k : String) :
    dget (dremove d a) k = if a = k then none else dget d k := by
  induction d with
  | nil => simp [dremove, dget]
  | cons p rest ih =>
    simp only [dremove]
    by_cases hp : p.1 = a
    · rw [if_pos hp, ih]
      by_cases hak : a = k
      · simp [hak]
      · have hpk : ¬ p.1 = k := fun h => hak (hp ▸ h)
        simp [hak, dget, hpk]
    · rw [if_neg hp]
      simp only [dget]
      by_cases hpk : p.1 = k
      · have hak : ¬ a = k := fun h => hp (h ▸ hpk)
        simp [hpk, hak]
      · simp [hpk, ih]

theorem dget_dset (d : Dict) (a v k : String) :
    dget (dset d a v) k = if a = k then some v else dget d k := by
  simp only [dset, dget, dget_dremove]
  by_cases hak : a = k <;> simp [hak]

theorem dupdate_cons (d : Dict) (p : String × String) (ps : List (String × String)) :
    dupdate d (p :: ps) = dupdate (dset d p.1 p.2) ps := rfl

theorem dget_dupdate_not_mem (ps : List (String × String)) (d : Dict) (k : String)
    (h : ∀ p ∈ ps, p.1 ≠ k) : dget (dupdate d ps) k = dget d k := by
  induction ps generalizing d with
  | nil => rfl
  | cons p ps ih =>
    rw [dupdate_cons, ih _ (fun q hq => h q (List.mem_cons_of_mem _ hq)), dget_dset,
      if_neg (h p (List.mem_cons_self _ _))]

theorem dget_eq_none_iff (d : Dict) (k : String) :
    dget d k = none ↔ ∀ p ∈ d, p.1 ≠ k := by
  induction d with
  | nil => simp [dget]
  | cons p rest ih =>
    simp only [dget, List.mem_cons]
    by_cases hpk : p.1 = k
    · simp [hpk]
    · simp [hpk, ih]

theorem fst_mem_take_of_mem_zip {xs ys : List String} {p : String × String}
    (h : p ∈ xs.zip ys) : p.1 ∈ xs.take ys.length := by
  induction xs generalizing ys with
  | nil => simp [List.zip] at h
  | cons x xs ih =>
    cases ys with
    | nil => simp [List.zip] at h
    | cons y ys =>
      simp only [List.zip_cons_cons, List.mem_cons] at h
      rcases h with h | h
      · simp [h]
      · simpa using Or.inr (ih h)

theorem dget_subMap_none (xs ys : List String) (k : String)
    (h : k ∉ xs.take ys.length) : dget (subMap xs ys) k = none := by
  unfold subMap
  rw [dget_dupdate_not_mem]
  · rfl
  · intro p hp hpk
    exact h (hpk ▸ fst_mem_take_of_mem_zip hp)

/-- One `buildStep` adds no binding for a key `k` that does not occur in the
truncated (zipped) part of the processed group. -/
theorem buildStep_none (ts : Scheme) (m : SchemeMap) (g : String × List String) (k : String)
    (h : ∀ ys, buildStep.dgetGroups ts.groups g.1 = some ys → k ∉ g.2.take ys.length)
    (hm : dget m.marks k = none) (hv : dget m.virama k = none)
    (hc : dget m.consonants k = none) (ho : dget m.other k = none) :
    dget (buildStep ts m g).marks k = none ∧ dget (buildStep ts m g).virama k = none ∧
    dget (buildStep ts m g).consonants k = none ∧ dget (buildStep ts m g).other k = none := by
  unfold buildStep
  cases hys : buildStep.dgetGroups ts.groups g.1 with
  | none => exact ⟨hm, hv, hc, ho⟩
  | some ys =>
    have hsm : dget (subMap g.2 ys) k = none := dget_subMap_none _ _ _ (h ys hys)
    have hsm' : ∀ p ∈ subMap g.2 ys, p.1 ≠ k := (dget_eq_none_iff _ _).1 hsm
    have hup : ∀ d : Dict, dget d k = none → dget (dupdate d (subMap g.2 ys)) k = none :=
      fun d hd => (dget_dupdate_not_mem _ d k hsm').trans hd
    by_cases h1 : strEndsWith g.1 "marks"
    · simp only [h1, if_true]
      exact ⟨hup _ hm, hv, hc, ho⟩
    · simp only [Bool.not_eq_true] at h1
      simp only [h1, Bool.false_eq_true, if_false]
      by_cases h2 : g.1 = "virama"
      · simp only [if_pos h2]
        exact ⟨hm, hsm, hc, ho⟩
      · simp only [if_neg h2]
        by_cases h3 : strEndsWith g.1 "consonants"
        · simp only [h3, if_true]
          exact ⟨hm, hv, hup _ hc, hup _ ho⟩
        · simp only [Bool.not_eq_true] at h3
          simp only [h3, Bool.false_eq_true, if_false]
          exact ⟨hm, hv, hc, hup _ ho⟩

/-- Folding `buildStep` over a list of groups adds no binding for a key `k`
absent from every truncated group pairing. -/
theorem build_foldl_none (ts : Scheme) (gs : List (String × List String)) (m : SchemeMap)
    (k : String)
    (h : ∀ g ∈ gs, ∀ ys, buildStep.dgetGroups ts.groups g.1 = some ys →
      k ∉ g.2.take ys.length)
    (hm : dget m.marks k = none) (hv : dget m.virama k = none)
    (hc : dget m.consonants k = none) (ho : dget m.other k = none) :
    dget (gs.foldl (buildStep ts) m).marks k = none ∧
    dget (gs.foldl (buildStep ts) m).virama k = none ∧
    dget (gs.foldl (buildStep ts) m).consonants k = none ∧
    dget (gs.foldl (buildStep ts) m).other k = none := by
  induction gs generalizing m with
  | nil => exact ⟨hm, hv, hc, ho⟩
  | cons g gs ih =>
    obtain ⟨hm', hv', hc', ho'⟩ :=
      buildStep_none ts m g k (h g (List.mem_cons_self _ _)) hm hv hc ho
    exact ih _ (fun q hq => h q (List.mem_cons_of_mem _ hq)) hm' hv' hc' ho'

/-! ## Claim theorems -/

/-- C1: for every scheme map with a segmental source and a romanized
destination, transliterating the one-character input `[L]`, where `L` is
registered in the `consonants` sub-map (and, being a consonant, in `other`,
and not in `marks` or `virama`), yields the mapped consonant followed by the
end-of-string flush `"a"`. -/
theorem brahmic_single_consonant (m : SchemeMap) (L : Char) (v : String)
    (hfr : m.from_roman = false) (hto : m.to_roman = true)
    (hm : dget m.marks (charStr L) = none)
    (hv : dget m.virama (charStr L) = none)
    (hc : (dget m.consonants (charStr L)).isSome = true)
    (ho : dget m.other (charStr L) = some v) :
    transliterate [L] m = v ++ "a" := by
  simp [transliterate, hfr, brahmic, brahmicGo, brahmicEmit, brahmicNext, hm, hv, ho, hto, hc,
    String.empty_append]

/-- Witness for C1: the single consonant `क` under the Devanagari → IAST map
yields `"ka"`. -/
theorem brahmic_single_consonant_witness :
    transliterate ['क'] devanagariToIast = "k" ++ "a" :=
  brahmic_single_consonant devanagariToIast 'क' "k"
    (by decide) (by decide) (by decide) (by decide) (by decide) (by decide)

/-- C2: a dependent vowel sign directly after a consonant emits only the
sign's mapped form — the pending implicit `"a"` of the consonant is never
emitted, whatever the destination's romanization flag. -/
theorem brahmic_mark_after_consonant (m : SchemeMap) (L1 L2 : Char) (v w : String)
    (hfr : m.from_roman = false)
    (hm1 : dget m.marks (charStr L1) = none)
    (hv1 : dget m.virama (charStr L1) = none)
    (hc1 : (dget m.consonants (charStr L1)).isSome = true)
    (ho1 : dget m.other (charStr L1) = some v)
    (hm2 : dget m.marks (charStr L2) = some w)
    (hc2 : dget m.consonants (charStr L2) = none) :
    transliterate [L1, L2] m = v ++ w := by
  simp [transliterate, hfr, brahmic, brahmicGo, brahmicEmit, brahmicNext, hm1, hv1, ho1, hc1,
    hm2, hc2, String.empty_append, String.append_empty]

/-- Witness for C2: `क` + the sign `ी` under Devanagari → IAST yields `"kī"`,
not `"kaī"` or `"kai"`. -/
theorem brahmic_mark_after_consonant_witness :
    transliterate ['क', 'ी'] devanagariToIast = "k" ++ "ī" :=
  brahmic_mark_after_consonant devanagariToIast 'क' 'ी' "k" "ī"
    (by decide) (by decide) (by decide) (by decide) (by decide) (by decide) (by decide)

/-- C3: a virama directly after a consonant emits only the virama's mapped
form, suppressing the implicit vowel; with a romanized destination that
mapped form is `""`, leaving the bare consonant. -/
theorem brahmic_virama_after_consonant (m : SchemeMap) (L1 L2 : Char) (v w : String)
    (hfr : m.from_roman = false)
    (hm1 : dget m.marks (charStr L1) = none)
    (hv1 : dget m.virama (charStr L1) = none)
    (hc1 : (dget m.consonants (charStr L1)).isSome = true)
    (ho1 : dget m.other (charStr L1) = some v)
    (hm2 : dget m.marks (charStr L2) = none)
    (hv2 : dget m.virama (charStr L2) = some w)
    (hc2 : dget m.consonants (charStr L2) = none) :
    transliterate [L1, L2] m = v ++ w := by
  simp [transliterate, hfr, brahmic, brahmicGo, brahmicEmit, brahmicNext, hm1, hv1, ho1, hc1,
    hm2, hv2, hc2, String.empty_append, String.append_empty]

/-- Witness for C3: the Devanagari → IAST map sends the virama to `""`, and
`क` + virama yields the bare `"k"`. -/
theorem brahmic_virama_after_consonant_witness :
    transliterate ['क', '्'] devanagariToIast = "k" ++ "" ∧
    dget devanagariToIast.virama (charStr '्') = some "" :=
  ⟨brahmic_virama_after_consonant devanagariToIast 'क' '्' "k" ""
    (by decide) (by decide) (by decide) (by decide) (by decide) (by decide) (by decide)
    (by decide),
   by decide⟩

/-- C5: the romanized-source conversion accumulates nothing: for every input
and every scheme map with a romanized source it returns `""`. -/
theorem roman_source_returns_empty (data : List Char) (m : SchemeMap)
    (h : m.from_roman = true) :
    roman data m = "" ∧ transliterate data m = "" := by
  refine ⟨rfl, ?_⟩
  simp [transliterate, h, roman, String.join]

/-- Witness for C5: IAST input `"ka"` toward Devanagari produces `""`. -/
theorem roman_source_returns_empty_witness :
    roman "ka".toList iastToDevanagari = "" ∧
    transliterate "ka".toList iastToDevanagari = "" :=
  roman_source_returns_empty "ka".toList iastToDevanagari (by decide)

/-- The segmental-source algorithm itself does pass an unmapped character
through: with a segmental source, a single character absent from all four
sub-maps is emitted unchanged (supporting lemma; the romanized-source stub
violates this, see `roman_source_drops_unmapped_char`). -/
theorem brahmic_source_passthrough (m : SchemeMap) (L : Char)
    (hfr : m.from_roman = false)
    (hm : dget m.marks (charStr L) = none)
    (hv : dget m.virama (charStr L) = none)
    (hc : dget m.consonants (charStr L) = none)
    (ho : dget m.other (charStr L) = none) :
    transliterate [L] m = charStr L := by
  simp [transliterate, hfr, brahmic, brahmicGo, brahmicEmit, brahmicNext, hm, hv, hc, ho,
    String.empty_append, String.append_empty]

/-- C4 (failing direction): `x` is in no sub-map of the IAST → Devanagari
map, whose source is romanized, yet `transliterate` drops it: the
romanized-source stub returns `""`, contradicting the claimed pass-through
"regardless of whether the source scheme is romanized or segmental". -/
theorem roman_source_drops_unmapped_char :
    dget iastToDevanagari.marks (charStr 'x') = none ∧
    dget iastToDevanagari.virama (charStr 'x') = none ∧
    dget iastToDevanagari.consonants (charStr 'x') = none ∧
    dget iastToDevanagari.other (charStr 'x') = none ∧
    iastToDevanagari.from_roman = true ∧
    transliterate ['x'] iastToDevanagari = "" ∧
    transliterate ['x'] iastToDevanagari ≠ "x" := by
  decide

/-- C6 (failing at a concrete input): `"की"` is built from a mapped consonant
plus an explicit vowel sign; Devanagari → IAST yields `"kī"`, but the return
trip through the inverse map runs the romanized-source stub and yields `""`,
not the original string. -/
theorem round_trip_through_stub_fails :
    transliterate "की".toList devanagariToIast = "kī" ∧
    transliterate "kī".toList iastToDevanagari = "" ∧
    ("" : String) ≠ "की" := by
  decide

/-- C7: resolution against the catalog fails exactly when a scheme name is
absent — `_from` is looked up first — and when both names resolve the call
always succeeds with the converted text (no other error condition). -/
theorem transliterate_unknown_scheme (data : List Char) (fromName toName : String) :
    (exceptIsOk (transliterateNames data fromName toName) = false ↔
      dgetScheme SCHEMES fromName = none ∨ dgetScheme SCHEMES toName = none) ∧
    (dgetScheme SCHEMES fromName = none →
      transliterateNames data fromName toName = Except.error fromName) ∧
    (∀ fs, dgetScheme SCHEMES fromName = some fs → dgetScheme SCHEMES toName = none →
      transliterateNames data fromName toName = Except.error toName) ∧
    (∀ fs ts, dgetScheme SCHEMES fromName = some fs → dgetScheme SCHEMES toName = some ts →
      transliterateNames data fromName toName =
        Except.ok (transliterate data (SchemeMap.build fs ts))) := by
  cases hf : dgetScheme SCHEMES fromName with
  | none => simp [transliterateNames, hf, exceptIsOk]
  | some fs =>
    cases ht : dgetScheme SCHEMES toName with
    | none => simp [transliterateNames, hf, ht, exceptIsOk]
    | some ts => simp [transliterateNames, hf, ht, exceptIsOk]

/-- Witness for C7: the unknown name `"sanskrit"` fails with that key. -/
theorem transliterate_unknown_scheme_witness :
    transliterateNames [] "sanskrit" "iast" = Except.error "sanskrit" :=
  (transliterate_unknown_scheme [] "sanskrit" "iast").2.1 (by decide)

/-- C8: scheme-map construction pairs same-named groups positionally by zip,
which silently stops at the shorter group (no error is possible: the builder
is a total function); a key occurring in no group's zipped-and-truncated
prefix ends up in no sub-map. -/
theorem schemeMap_build_truncates (fs ts : Scheme) (k : String)
    (h : ∀ g ∈ fs.groups, ∀ ys, buildStep.dgetGroups ts.groups g.1 = some ys →
      k ∉ g.2.take ys.length) :
    dget (SchemeMap.build fs ts).marks k = none ∧
    dget (SchemeMap.build fs ts).virama k = none ∧
    dget (SchemeMap.build fs ts).consonants k = none ∧
    dget (SchemeMap.build fs ts).other k = none :=
  build_foldl_none ts fs.groups _ k h rfl rfl rfl rfl

/-- A two-consonant source group paired against a one-consonant destination
group, exercising the silent zip truncation. -/
def mismatchedSource : Scheme := ⟨[("consonants", ["x", "y"])], false⟩

/-- The destination side of the mismatched pair. -/
def mismatchedTarget : Scheme := ⟨[("consonants", ["p"])], true⟩

/-- Witness for C8: with groups of lengths 2 and 1, the first source
character is paired positionally, while the second — beyond the shorter
length — appears in no sub-map, and no error is raised. -/
theorem schemeMap_build_truncates_witness :
    dget (SchemeMap.build mismatchedSource mismatchedTarget).consonants "x" = some "p" ∧
    (dget (SchemeMap.build mismatchedSource mismatchedTarget).marks "y" = none ∧
     dget (SchemeMap.build mismatchedSource mismatchedTarget).virama "y" = none ∧
     dget (SchemeMap.build mismatchedSource mismatchedTarget).consonants "y" = none ∧
     dget (SchemeMap.build mismatchedSource mismatchedTarget).other "y" = none) :=
  ⟨by decide,
   schemeMap_build_truncates mismatchedSource mismatchedTarget "y" (by
     intro g hg ys hys
     have hg' : g = ("consonants", ["x", "y"]) := by
       simpa [mismatchedSource] using hg
     subst hg'
     have h0 : buildStep.dgetGroups mismatchedTarget.groups ("consonants", ["x", "y"]).1 =
         some ["p"] := by decide
     have hys' : ys = ["p"] := (Option.some.inj (h0.symm.trans hys)).symm
     subst hys'
     decide)⟩

/-- Per-character translation with no carried implicit-vowel state: each
character is sent through `marks`, `virama`, or `other` (falling back to
itself), and no literal `"a"` is ever emitted.  Comparison definition for
the C9 consequent that a segmental destination never receives an inserted
`"a"`. -/
def plainEmit (m : SchemeMap) (L : Char) : String :=
  match dget m.marks (charStr L) with
  | some v => v
  | none =>
    match dget m.virama (charStr L) with
    | some v => v
    | none => (dget m.other (charStr L)).getD (charStr L)

/-- Stateless per-character translation of a whole string (see `plainEmit`). -/
def brahmicNoVowel (m : SchemeMap) : List Char → String
  | [] => ""
  | L :: rest => plainEmit m L ++ brahmicNoVowel m rest

/-- With no pending implicit vowel, one step of `_brahmic` emits exactly the
stateless per-character translation. -/
theorem brahmicEmit_false (m : SchemeMap) (L : Char) :
    brahmicEmit m false L = plainEmit m L := by
  unfold brahmicEmit plainEmit
  cases dget m.marks (charStr L) with
  | some v => rfl
  | none =>
    cases dget m.virama (charStr L) with
    | some v => rfl
    | none => simp [String.empty_append]

/-- C9: after processing a character `L`, the carried flag equals
`to_roman && (L ∈ consonants)`; consequently, with a segmental (non-romanized)
destination the flag stays false through the whole scan and the output is the
stateless per-character translation, with no literal `"a"` inserted. -/
theorem pending_implicit_vowel_invariant (m : SchemeMap) :
    (∀ (L : Char) (rest : List Char) (s : Bool),
      brahmicGo m (L :: rest) s =
        brahmicEmit m s L ++
          brahmicGo m rest (m.to_roman && (dget m.consonants (charStr L)).isSome)) ∧
    (m.to_roman = false → ∀ data : List Char, brahmic data m = brahmicNoVowel m data) := by
  constructor
  · intro L rest s
    rfl
  · intro h data
    unfold brahmic
    induction data with
    | nil => rfl
    | cons L rest ih =>
      simp only [brahmicGo, brahmicNoVowel, brahmicNext, h, Bool.false_and,
        brahmicEmit_false, ih]

/-- Witness for C9: Devanagari → Bengali (segmental destination) on `"नमः"`
coincides with the stateless translation. -/
theorem pending_implicit_vowel_invariant_witness :
    brahmic "नमः".toList devanagariToBengali =
      brahmicNoVowel devanagariToBengali "नमः".toList :=
  (pending_implicit_vowel_invariant devanagariToBengali).2 (by decide) _

/-- One emission step only consults the sub-maps at the single code point
being processed. -/
theorem brahmicEmit_congr (m mp : SchemeMap) (s : Bool) (L : Char)
    (h1 : dget m.marks (charStr L) = dget mp.marks (charStr L))
    (h2 : dget m.virama (charStr L) = dget mp.virama (charStr L))
    (h4 : dget m.other (charStr L) = dget mp.other (charStr L)) :
    brahmicEmit m s L = brahmicEmit mp s L := by
  unfold brahmicEmit
  rw [h1, h2, h4]

/-- The carried-flag update only consults `consonants` at the single code
point being processed. -/
theorem brahmicNext_congr (m mp : SchemeMap) (L : Char) (hto : m.to_roman = mp.to_roman)
    (h3 : dget m.consonants (charStr L) = dget mp.consonants (charStr L)) :
    brahmicNext m L = brahmicNext mp L := by
  unfold brahmicNext
  rw [hto, h3]

/-- The `_brahmic` loop, from any carried state, only consults the sub-maps
at the single code points of the input. -/
theorem brahmicGo_congr (m mp : SchemeMap) (hto : m.to_roman = mp.to_roman)
    (data : List Char) (s : Bool)
    (h : ∀ L ∈ data,
      dget m.marks (charStr L) = dget mp.marks (charStr L) ∧
      dget m.virama (charStr L) = dget mp.virama (charStr L) ∧
      dget m.consonants (charStr L) = dget mp.consonants (charStr L) ∧
      dget m.other (charStr L) = dget mp.other (charStr L)) :
    brahmicGo m data s = brahmicGo mp data s := by
  induction data generalizing s with
  | nil => rfl
  | cons L rest ih =>
    have hL := h L (List.mem_cons_self _ _)
    have hrest := fun x hx => h x (List.mem_cons_of_mem _ hx)
    simp only [brahmicGo, brahmicEmit_congr m mp s L hL.1 hL.2.1 hL.2.2.2,
      brahmicNext_congr m mp L hto hL.2.2.1, ih _ hrest]

/-- C10: the segmental-source algorithm reads its input one code point at a
time and consults the sub-maps only at single-code-point keys, so two maps
agreeing on every single code point of the input produce the same output —
a sub-map entry whose key is a multi-code-point cluster (such as the
conjuncts `क्ष` and `ज्ञ` registered in the consonants tables) can never be
matched as a unit, and such input is processed as its individual component
code points. -/
theorem brahmic_single_codepoint_lookups (m mp : SchemeMap) (data : List Char)
    (hto : m.to_roman = mp.to_roman)
    (h : ∀ L ∈ data,
      dget m.marks (charStr L) = dget mp.marks (charStr L) ∧
      dget m.virama (charStr L) = dget mp.virama (charStr L) ∧
      dget m.consonants (charStr L) = dget mp.consonants (charStr L) ∧
      dget m.other (charStr L) = dget mp.other (charStr L)) :
    brahmic data m = brahmic data mp :=
  brahmicGo_congr m mp hto data false h

/-- `devanagariToIast` with the multi-code-point conjunct entries deleted
from `consonants` and `other`. -/
def devanagariToIastPruned : SchemeMap :=
  { devanagariToIast with
    consonants := dremove (dremove devanagariToIast.consonants "क्ष") "ज्ञ",
    other := dremove (dremove devanagariToIast.other "क्ष") "ज्ञ" }

/-- Witness for C10: `क्ष` is a three-code-point key registered in the
Devanagari → IAST consonants sub-map, yet deleting it changes nothing: the
input `"क्ष"` is transliterated code point by code point, to `"kṣa"`. -/
theorem brahmic_single_codepoint_lookups_witness :
    dget devanagariToIast.consonants "क्ष" = some "kṣ" ∧
    ("क्ष" : String).toList.length = 3 ∧
    dget devanagariToIastPruned.consonants "क्ष" = none ∧
    brahmic "क्ष".toList devanagariToIast = brahmic "क्ष".toList devanagariToIastPruned ∧
    brahmic "क्ष".toList devanagariToIast = "kṣa" :=
  ⟨by decide, by decide, by decide,
   brahmic_single_codepoint_lookups devanagariToIast devanagariToIastPruned "क्ष".toList
     (by decide) (by decide),
   by decide⟩

end Sanscript
